import Mathlib

/-!
Verification of the store-and-forward sensor pipeline of this repository
(classes `BicycleSensor` in `BicycleSensor.py` and `Sensor` in `sensor.py`):
segment rotation (`trigger_upload`), the upload queue, queue recovery on
construction, and the drain loop (`_upload_data`).
-/

namespace Sensors

/-- Outcome of one `requests.post` call as observed by `_upload_data`:
either an HTTP status code, or a raised transport exception. -/
inductive UploadResult where
  | status (code : Nat)
  | transportError
deriving DecidableEq, Repr

/-- Success as `_upload_data` tests it: exactly HTTP 200. -/
def UploadResult.isSuccess : UploadResult → Bool
  | .status c => c == 200
  | .transportError => false

/-- Fixed collection URL used by both `_upload_data` implementations. -/
def uploadURL : String := "https://bicycledata.ochel.se:80/api/sensor/update"

/-- One HTTP POST as built by `_upload_data`: the JSON body fields
(`hash`, `sensor`, `csv_data`) and the optional per-call timeout argument. -/
structure Request where
  url : String
  hash : String
  sensor : String
  csvData : List String
  timeout : Option Nat
deriving DecidableEq, Repr

/-- Request built at `BicycleSensor.py` line 172:
`requests.post(url, json=..., timeout=10)`. -/
def mkRequest (hash sensor : String) (csv : List String) : Request :=
  ⟨uploadURL, hash, sensor, csv, some 10⟩

/-- Request built at `sensor.py` line 144: same URL and JSON body, but the
`requests.post` call passes no `timeout` argument. -/
def mkRequestSensorPy (hash sensor : String) (csv : List String) : Request :=
  ⟨uploadURL, hash, sensor, csv, none⟩

/-- Contents of the `pending` directory: an association of filename to the
list of lines the file holds. -/
abbrev Disk := List (String × List String)

/-- Reading a file: `open(fn, 'r')` followed by `readlines()`; `none` when
the file does not exist (the `open` raises). -/
def lookupDisk : Disk → String → Option (List String)
  | [], _ => none
  | e :: tl, fn => if e.1 = fn then some e.2 else lookupDisk tl fn

/-- Effect of `shutil.move(fn, 'uploaded')` on the pending directory:
the file disappears from `pending`. -/
def removeDisk : Disk → String → Disk
  | [], _ => []
  | e :: tl, fn => if e.1 = fn then removeDisk tl fn else e :: removeDisk tl fn

/-- Creation via `open(fn, 'w')`: create or truncate `fn`. -/
def createDisk (d : Disk) (fn : String) : Disk :=
  (fn, []) :: removeDisk d fn

/-- Appending one line to file `fn` (a `write` of the data plus newline). -/
def appendDisk (d : Disk) (fn : String) (line : String) : Disk :=
  d.map (fun e => if e.1 = fn then (e.1, e.2 ++ [line]) else e)

/-- Mutable state of a `BicycleSensor` instance relevant to the claims:
the `_alive` flag, the open segment (`_file`, by name), the last segment
name assigned (`_filename`), the upload queue (`_upload_queue`, head =
front), the `pending` directory contents, the names moved to the
`uploaded` directory in arrival order, the file handles the writer holds
open, and the `upload_event` flag. -/
structure SensorState where
  alive : Bool
  file : Option String
  filename : String
  queue : List String
  pendingDisk : Disk
  uploadedDir : List String
  openHandles : List String
  eventSet : Bool
deriving DecidableEq, Repr

/-- Method `BicycleSensor.write_to_file` (lines 118-122): append `data` to
the open segment; no-op when `_file` is `None`. -/
def writeToFile (s : SensorState) (data : String) : SensorState :=
  match s.file with
  | some fn => { s with pendingDisk := appendDisk s.pendingDisk fn data }
  | none => s

/-- Segment filename for timestamp `now`:
`os.path.join('pending', now + '.csv')` at `BicycleSensor.py` line 137. -/
def segName (now : String) : String := "pending/" ++ now ++ ".csv"

/-- Method `BicycleSensor.trigger_upload` (lines 130-148), parameterised by
the header line the subclass's `write_header` writes through
`write_to_file`, the current timestamp `now`, and whether
`open(self._filename, 'w')` succeeds (`ioOk = false` models the caught
`IOError`, after which `_file` is set to `None`). The new file is opened
only under `if self._alive:` (line 139). -/
def triggerUpload (header now : String) (ioOk : Bool) (s : SensorState) : SensorState :=
  let s1 :=
    match s.file with
    | some fn =>
      { s with file := none, openHandles := s.openHandles.erase fn,
               queue := s.queue ++ [s.filename] }
    | none => s
  let fn := segName now
  let s2 := { s1 with filename := fn }
  let s3 :=
    if s2.alive then
      if ioOk then
        writeToFile
          { s2 with file := some fn, openHandles := s2.openHandles ++ [fn],
                    pendingDisk := createDisk s2.pendingDisk fn }
          header
      else
        { s2 with file := none }
    else s2
  { s3 with eventSet := true }

/-- Method `BicycleSensor._handle_shutdown` (lines 124-128). -/
def handleShutdown (s : SensorState) : SensorState :=
  { s with alive := false, eventSet := true }

/-- Result of one drain round of `_upload_data`: the remaining queue, the
remaining pending directory, the archive directory, and the requests
issued this round. -/
structure DrainResult where
  queue : List String
  pendingDisk : Disk
  uploadedDir : List String
  requests : List Request
deriving DecidableEq, Repr

/-- Method `_upload_data` (`BicycleSensor.py` lines 163-183, `sensor.py`
lines 136-154), parameterised by the request builder `mk` (the two files
differ only in the timeout argument) and by `f`, the outcome of the POST
for each segment. A missing pending file (`open(filename, 'r')` raising,
caught by the outer `except`), a transport error (same `except`), and a
non-200 status (the `break`) all stop the round with nothing popped. -/
def uploadDataGo (mk : String → String → List String → Request)
    (hash name : String) (f : String → UploadResult) :
    List String → Disk → List String → DrainResult
  | [], d, u => ⟨[], d, u, []⟩
  | fn :: rest, d, u =>
    match lookupDisk d fn with
    | none => ⟨fn :: rest, d, u, []⟩
    | some lines =>
      let req := mk hash name lines
      match f fn with
      | .status c =>
        if c = 200 then
          let r := uploadDataGo mk hash name f rest (removeDisk d fn) (u ++ [fn])
          ⟨r.queue, r.pendingDisk, r.uploadedDir, req :: r.requests⟩
        else ⟨fn :: rest, d, u, [req]⟩
      | .transportError => ⟨fn :: rest, d, u, [req]⟩

/-- Method `BicycleSensor._upload_data` acting on the whole sensor state,
also returning the requests issued during the round. -/
def uploadData (hash name : String) (f : String → UploadResult) (s : SensorState) :
    SensorState × List Request :=
  let r := uploadDataGo mkRequest hash name f s.queue s.pendingDisk s.uploadedDir
  ({ s with queue := r.queue, pendingDisk := r.pendingDisk, uploadedDir := r.uploadedDir },
   r.requests)

/-- Queue recovery at `BicycleSensor.py` line 95 / `sensor.py` line 96:
given the entries of the `pending` directory as (name, is-regular-file)
pairs, keep the regular files, join each name with the directory
(`os.path.join('pending', f)`), and sort. Python's `sorted` on strings is
lexicographic, modelled by `List.mergeSort` under `≤` on `String`. -/
def recoverQueue (entries : List (String × Bool)) : List String :=
  List.mergeSort ((entries.filter (fun e => e.2)).map (fun e => "pending/" ++ e.1))

/-- State of a `BicycleSensor` right after the directory setup in
`__init__` with an empty `pending` directory, before the constructor's own
`trigger_upload` call: no open file, empty queue. (`_filename` is unread
while `_file` is `None`; it is modelled as the empty string.) -/
def initState : SensorState :=
  ⟨true, none, "", [], [], [], [], false⟩

/-- Sequence of `trigger_upload` calls with the given timestamps, all with
successful file creation. -/
def rotations (header : String) (ts : List String) (s : SensorState) : SensorState :=
  ts.foldl (fun s t => triggerUpload header t true s) s

/-- One externally triggered transition of a `BicycleSensor`. -/
inductive Step : SensorState → SensorState → Prop where
  | rotate (header now : String) (ioOk : Bool) (s : SensorState) :
      Step s (triggerUpload header now ioOk s)
  | write (data : String) (s : SensorState) : Step s (writeToFile s data)
  | shutdown (s : SensorState) : Step s (handleShutdown s)
  | drain (hash name : String) (f : String → UploadResult) (s : SensorState) :
      Step s (uploadData hash name f s).1

/-- States reachable from the post-construction state. -/
inductive Reachable : SensorState → Prop where
  | init : Reachable initState
  | step {s t : SensorState} : Reachable s → Step s t → Reachable t

/-- Handle discipline of the writer: `_file` mirrors the open handles,
which contain at most the current segment, whose name `_filename` holds. -/
def handleInv (s : SensorState) : Prop :=
  (∀ fn, s.file = some fn → s.openHandles = [fn] ∧ s.filename = fn) ∧
  (s.file = none → s.openHandles = [])

/-- Sample reachable-looking state with one open segment. -/
def sampleOpenState : SensorState :=
  ⟨true, some "pending/a.csv", "pending/a.csv", [], [("pending/a.csv", ["hdr"])], [],
   ["pending/a.csv"], false⟩

/-- Kind of pipeline call, for counting the calls made after a shutdown
request. -/
inductive SensorAction where
  | rotate
  | drain
deriving DecidableEq, Repr

/-- Calls made by `BicycleSensor._upload_data_loop` after its
`while self._alive` loop exits (lines 157-160): one `trigger_upload`, then
one `_upload_data`. -/
def uploaderFinalActions : List SensorAction := [.rotate, .drain]

/-- Call made by the body of the `while self._alive` loop (lines 152-155)
when `_handle_shutdown`'s `upload_event.set()` wakes the uploader out of
`wait`: the loop runs `_upload_data` once more before re-testing `_alive`;
nothing if the uploader was not blocked in `wait`. -/
def uploaderWakeActions (wasWaiting : Bool) : List SensorAction :=
  if wasWaiting then [.drain] else []

/-- Call made by `BicycleSensor.main` after its loop exits (lines 203-205):
one `trigger_upload` if a segment is still open. -/
def mainFinalActions (fileOpen : Bool) : List SensorAction :=
  if fileOpen then [.rotate] else []

/-- All `trigger_upload` / `_upload_data` calls occurring after `_alive`
becomes false, as a function of whether a segment was open in `main` and
whether the uploader was blocked in `upload_event.wait()`. -/
def postShutdownActions (fileOpen wasWaiting : Bool) : List SensorAction :=
  mainFinalActions fileOpen ++ uploaderWakeActions wasWaiting ++ uploaderFinalActions

/-- Removing one file from the pending directory does not change the
content of any other file. -/
theorem lookupDisk_removeDisk_ne (fn g : String) (h : g ≠ fn) :
    ∀ d : Disk, lookupDisk (removeDisk d fn) g = lookupDisk d g := by
  intro d
  induction d with
  | nil => rfl
  | cons e tl ih =>
    by_cases he : e.1 = fn
    · have heg : ¬ e.1 = g := by rw [he]; exact fun hh => h hh.symm
      simp [removeDisk, lookupDisk, he, heg, ih, Ne.symm h]
    · by_cases heg : e.1 = g
      · simp [removeDisk, lookupDisk, he, heg, h]
      · simp [removeDisk, lookupDisk, he, heg, ih]

/-- Appending a single rotation to a rotation sequence. -/
theorem rotations_concat (header t : String) (ts : List String) (s : SensorState) :
    rotations header (ts ++ [t]) s = triggerUpload header t true (rotations header ts s) := by
  simp [rotations, List.foldl_append]

/-- Removing an absent file from the pending directory is the identity. -/
theorem removeDisk_of_not_mem (fn : String) :
    ∀ d : Disk, (∀ e ∈ d, e.1 ≠ fn) → removeDisk d fn = d := by
  intro d
  induction d with
  | nil => intro _; rfl
  | cons e tl ih =>
    intro h
    have he : e.1 ≠ fn := h e (by simp)
    simp only [removeDisk, if_neg he, List.cons.injEq, true_and]
    exact ih (fun g hg => h g (by simp [hg]))

/-- Entries surviving a removal are not the removed file. -/
theorem mem_removeDisk_ne (fn : String) :
    ∀ d : Disk, ∀ e ∈ removeDisk d fn, e.1 ≠ fn := by
  intro d
  induction d with
  | nil => simp [removeDisk]
  | cons g tl ih =>
    intro e he
    by_cases hg : g.1 = fn
    · simp only [removeDisk, if_pos hg] at he
      exact ih e he
    · simp only [removeDisk, if_neg hg, List.mem_cons] at he
      rcases he with he | he
      · rw [he]; exact hg
      · exact ih e he

/-- Creating a file and writing one line to it yields that line as the
file's sole content, and leaves every other file alone. -/
theorem appendDisk_create (d : Disk) (fn line : String) :
    appendDisk (createDisk d fn) fn line = (fn, [line]) :: removeDisk d fn := by
  have h1 : ∀ e ∈ removeDisk d fn,
      (if e.1 = fn then (e.1, e.2 ++ [line]) else e) = id e := by
    intro e he
    simp [mem_removeDisk_ne fn d e he]
  simp only [createDisk, appendDisk, List.map_cons]
  rw [List.map_congr_left h1, List.map_id]
  simp

/-- Content of the pending directory built by a rotation sequence. -/
theorem lookupDisk_const (header : String) :
    ∀ (l : List String) (g : String), g ∈ l.map segName →
      lookupDisk (l.map (fun u => (segName u, [header]))) g = some [header] := by
  intro l
  induction l with
  | nil => simp
  | cons v tl ih =>
    intro g hg
    by_cases hv : segName v = g
    · simp [lookupDisk, hv]
    · have hmem : g ∈ tl.map segName := by
        obtain ⟨a, ha, hga⟩ := List.mem_map.mp hg
        rcases List.mem_cons.mp ha with h | h
        · exact absurd (h ▸ hga) hv
        · exact List.mem_map.mpr ⟨a, h, hga⟩
      simp [lookupDisk, hv, ih g hmem]

/-- State after a nonempty sequence of successful rotations from the
post-construction state: the last segment is open with just the header
written, all earlier segments are queued in order, nothing is archived. -/
theorem rotations_spec (header : String) :
    ∀ ts : List String, ∀ t : String, ((ts ++ [t]).map segName).Nodup →
      (rotations header (ts ++ [t]) initState).alive = true ∧
      (rotations header (ts ++ [t]) initState).file = some (segName t) ∧
      (rotations header (ts ++ [t]) initState).filename = segName t ∧
      (rotations header (ts ++ [t]) initState).queue = ts.map segName ∧
      (rotations header (ts ++ [t]) initState).uploadedDir = [] ∧
      (rotations header (ts ++ [t]) initState).openHandles = [segName t] ∧
      (rotations header (ts ++ [t]) initState).pendingDisk =
        ((ts ++ [t]).reverse).map (fun u => (segName u, [header])) := by
  intro ts
  induction ts using List.reverseRecOn with
  | nil =>
    intro t _
    simp [rotations, triggerUpload, writeToFile, createDisk, removeDisk, appendDisk, initState]
  | append_singleton ts t0 ih =>
    intro t hnd
    have hnd' : ((ts ++ [t0]).map segName ++ [t].map segName).Nodup := by
      rwa [← List.map_append]
    have hnd0 : ((ts ++ [t0]).map segName).Nodup := (List.nodup_append.mp hnd').1
    have hsep : segName t ∉ (ts ++ [t0]).map segName := by
      intro hmem
      exact (List.nodup_append.mp hnd').2.2 hmem (by simp)
    obtain ⟨ha, hfile, hfn, hq, hu, hh, hd⟩ := ih t0 hnd0
    rw [rotations_concat]
    have hnotin : ∀ e ∈ (rotations header (ts ++ [t0]) initState).pendingDisk,
        e.1 ≠ segName t := by
      rw [hd]
      intro e he
      obtain ⟨u0, hu0, rfl⟩ := List.mem_map.mp he
      intro hcontra
      exact hsep (hcontra ▸ List.mem_map_of_mem segName (List.mem_reverse.mp hu0))
    refine ⟨?_, ?_, ?_, ?_, ?_, ?_, ?_⟩
    · simp [triggerUpload, writeToFile, hfile, ha]
    · simp [triggerUpload, writeToFile, hfile, ha]
    · simp [triggerUpload, writeToFile, hfile, ha]
    · simp [triggerUpload, writeToFile, hfile, ha, hfn, hq, List.map_append]
    · simp [triggerUpload, writeToFile, hfile, ha, hu]
    · simp [triggerUpload, writeToFile, hfile, ha, hh]
    · simp only [triggerUpload, writeToFile, hfile, ha, eq_self_iff_true, if_true, ite_true]
      rw [appendDisk_create, removeDisk_of_not_mem (segName t) _ hnotin, hd]
      simp

/-- Draining with a uniformly succeeding endpoint empties the queue and
archives every segment in queue order. -/
theorem uploadDataGo_all200 (hash name : String) (f : String → UploadResult) :
    ∀ (q : List String) (d : Disk) (u : List String), q.Nodup →
      (∀ fn ∈ q, f fn = .status 200) →
      (∀ fn ∈ q, ∃ l, lookupDisk d fn = some l) →
      (uploadDataGo mkRequest hash name f q d u).queue = [] ∧
      (uploadDataGo mkRequest hash name f q d u).uploadedDir = u ++ q := by
  intro q
  induction q with
  | nil => intro d u _ _ _; simp [uploadDataGo]
  | cons fn rest ih =>
    intro d u hnd hok hex
    rw [List.nodup_cons] at hnd
    obtain ⟨lines, hd⟩ := hex fn (by simp)
    have hf : f fn = .status 200 := hok fn (by simp)
    have ihres := ih (removeDisk d fn) (u ++ [fn]) hnd.2
      (fun g hg => hok g (by simp [hg]))
      (fun g hg => by
        have hne : g ≠ fn := fun h => hnd.1 (h ▸ hg)
        rw [lookupDisk_removeDisk_ne fn g hne d]
        exact hex g (by simp [hg]))
    simp only [uploadDataGo, hd, hf, reduceIte]
    exact ⟨ihres.1, by rw [ihres.2]; simp⟩

/-- Invariant: the `_file` field mirrors the writer's open handles, which
hold at most the current segment, whose name `_filename` carries. -/
theorem reachable_handleInv : ∀ s : SensorState, Reachable s → handleInv s := by
  intro s h
  induction h with
  | init => exact ⟨fun fn hfn => by simp [initState] at hfn, fun _ => rfl⟩
  | step hr hstep ih =>
    rename_i s1 s2
    obtain ⟨ih1, ih2⟩ := ih
    cases hstep with
    | rotate header now ioOk s1 =>
      rcases hf : s1.file with _ | fn
      · have hoh := ih2 hf
        cases ha : s1.alive with
        | false =>
          constructor
          · intro g hg
            simp [triggerUpload, hf, ha] at hg
          · intro _
            simp [triggerUpload, hf, ha, hoh]
        | true =>
          cases ioOk with
          | false =>
            constructor
            · intro g hg
              simp [triggerUpload, hf, ha] at hg
            · intro _
              simp [triggerUpload, hf, ha, hoh]
          | true =>
            constructor
            · intro g hg
              simp only [triggerUpload, hf, ha, writeToFile] at hg ⊢
              simp at hg
              simp [triggerUpload, hf, ha, writeToFile, hoh, ← hg]
            · intro hg
              simp [triggerUpload, hf, ha, writeToFile] at hg
      · have hoh := (ih1 fn hf).1
        cases ha : s1.alive with
        | false =>
          constructor
          · intro g hg
            simp [triggerUpload, hf, ha] at hg
          · intro _
            simp [triggerUpload, hf, ha, hoh]
        | true =>
          cases ioOk with
          | false =>
            constructor
            · intro g hg
              simp [triggerUpload, hf, ha] at hg
            · intro _
              simp [triggerUpload, hf, ha, hoh]
          | true =>
            constructor
            · intro g hg
              simp only [triggerUpload, hf, ha, writeToFile] at hg ⊢
              simp at hg
              simp [triggerUpload, hf, ha, writeToFile, hoh, ← hg]
            · intro hg
              simp [triggerUpload, hf, ha, writeToFile] at hg
    | write data s1 =>
      rcases hf : s1.file with _ | fn
      · constructor
        · intro g hg
          simp [writeToFile, hf] at hg
        · intro _
          simp [writeToFile, hf, ih2 hf]
      · constructor
        · intro g hg
          simp only [writeToFile, hf] at hg ⊢
          simp at hg
          simp [writeToFile, hf, (ih1 fn hf).1, (ih1 fn hf).2, ← hg]
        · intro hg
          simp [writeToFile, hf] at hg
    | shutdown s1 =>
      constructor
      · intro g hg
        simp only [handleShutdown] at hg
        exact ⟨by simp [handleShutdown, (ih1 g hg).1], by simp [handleShutdown, (ih1 g hg).2]⟩
      · intro hg
        simp only [handleShutdown] at hg
        simp [handleShutdown, ih2 hg]
    | drain hash name f s1 =>
      constructor
      · intro g hg
        simp only [uploadData] at hg
        exact ⟨by simp [uploadData, (ih1 g hg).1], by simp [uploadData, (ih1 g hg).2]⟩
      · intro hg
        simp only [uploadData] at hg
        simp [uploadData, ih2 hg]

/-- Claim C1: when the upload request for the segment at the head of the
queue fails (any non-200 status or a transport exception), the drain round
stops with the queue, the pending directory and the archive unchanged: the
failing segment stays at the head, nothing is popped or reordered, and no
later segment is archived. -/
theorem upload_head_failure_fail_stop (hash name : String) (f : String → UploadResult)
    (fn : String) (rest : List String) (d : Disk) (u : List String) (lines : List String)
    (hdisk : lookupDisk d fn = some lines)
    (hfail : (f fn).isSuccess = false) :
    uploadDataGo mkRequest hash name f (fn :: rest) d u =
      ⟨fn :: rest, d, u, [mkRequest hash name lines]⟩ := by
  cases hf : f fn with
  | status c =>
    rw [hf] at hfail
    simp only [UploadResult.isSuccess, beq_eq_false_iff_ne, ne_eq] at hfail
    simp [uploadDataGo, hdisk, hf, hfail]
  | transportError =>
    simp [uploadDataGo, hdisk, hf]

/-- Concrete instance of the fail-stop theorem: a 500 response for the head
segment of a two-segment queue. -/
theorem upload_head_failure_fail_stop_witness :
    uploadDataGo mkRequest "h" "n" (fun _ => .status 500) ["pending/a.csv", "pending/b.csv"]
        [("pending/a.csv", ["l1"]), ("pending/b.csv", ["l2"])] [] =
      ⟨["pending/a.csv", "pending/b.csv"],
       [("pending/a.csv", ["l1"]), ("pending/b.csv", ["l2"])], [],
       [mkRequest "h" "n" ["l1"]]⟩ :=
  upload_head_failure_fail_stop "h" "n" _ _ _ _ _ ["l1"] (by decide) (by decide)

/-- Claim C2: for a sequence of rotations closing segments S1..Sn (with one
segment left open), if every upload request returns HTTP 200 then after the
drain the archive contains exactly S1..Sn in closure order and the upload
queue is empty. -/
theorem ordered_archive_on_success (header hash name : String) (f : String → UploadResult)
    (ts : List String) (t : String)
    (hnd : ((ts ++ [t]).map segName).Nodup)
    (hok : ∀ fn ∈ ts.map segName, f fn = .status 200) :
    (uploadData hash name f (rotations header (ts ++ [t]) initState)).1.uploadedDir =
      ts.map segName ∧
    (uploadData hash name f (rotations header (ts ++ [t]) initState)).1.queue = [] := by
  obtain ⟨ha, hfile, hfn, hq, hu, hh, hd⟩ := rotations_spec header ts t hnd
  have hqnodup : (ts.map segName).Nodup := by
    have hnd' : ((ts ++ [t]).map segName) = ts.map segName ++ [t].map segName :=
      List.map_append segName ts [t]
    rw [hnd'] at hnd
    exact (List.nodup_append.mp hnd).1
  have hex : ∀ fn ∈ ts.map segName,
      ∃ l, lookupDisk (rotations header (ts ++ [t]) initState).pendingDisk fn = some l := by
    intro fn hfnmem
    rw [hd]
    refine ⟨[header], lookupDisk_const header ((ts ++ [t]).reverse) fn ?_⟩
    obtain ⟨u0, hu0, rfl⟩ := List.mem_map.mp hfnmem
    exact List.mem_map_of_mem segName (by simp [hu0])
  have hall := uploadDataGo_all200 hash name f
    (rotations header (ts ++ [t]) initState).queue
    (rotations header (ts ++ [t]) initState).pendingDisk
    (rotations header (ts ++ [t]) initState).uploadedDir
    (by rw [hq]; exact hqnodup)
    (by rw [hq]; exact hok)
    (by rw [hq]; exact hex)
  constructor
  · simp only [uploadData]
    rw [hall.2, hu, hq]
    simp
  · simp only [uploadData]
    exact hall.1

/-- Concrete instance of the ordering theorem: two rotations followed by an
all-200 drain. -/
theorem ordered_archive_on_success_witness :
    (uploadData "h" "n" (fun _ => .status 200)
        (rotations "hdr" (["t1"] ++ ["t2"]) initState)).1.uploadedDir =
      ["t1"].map segName ∧
    (uploadData "h" "n" (fun _ => .status 200)
        (rotations "hdr" (["t1"] ++ ["t2"]) initState)).1.queue = [] :=
  ordered_archive_on_success "hdr" "h" "n" (fun _ => .status 200) ["t1"] "t2"
    (by decide) (fun fn _ => rfl)

/-- Claim C3: on construction, the upload queue is initialised to exactly
the regular files of the pending location (non-regular entries excluded),
sorted lexicographically; the three-file example recovers in exactly
timestamp order. -/
theorem recovery_sorted_queue (entries : List (String × Bool)) :
    List.Sorted (fun a b => a ≤ b) (recoverQueue entries) ∧
    (recoverQueue entries).Perm
      ((entries.filter (fun e => e.2)).map (fun e => "pending/" ++ e.1)) ∧
    recoverQueue
        [("20240101_000000.csv", true), ("20240101_000100.csv", true),
         ("20240101_000200.csv", true)] =
      ["pending/20240101_000000.csv", "pending/20240101_000100.csv",
       "pending/20240101_000200.csv"] := by
  refine ⟨List.sorted_mergeSort' _, List.mergeSort_perm _ _, ?_⟩
  have hmap :
      (([("20240101_000000.csv", true), ("20240101_000100.csv", true),
         ("20240101_000200.csv", true)].filter
          (fun e : String × Bool => e.2)).map (fun e => "pending/" ++ e.1)) =
      ["pending/20240101_000000.csv", "pending/20240101_000100.csv",
       "pending/20240101_000200.csv"] := by decide
  have hsorted :
      List.Sorted (fun a b : String => a ≤ b)
        ["pending/20240101_000000.csv", "pending/20240101_000100.csv",
         "pending/20240101_000200.csv"] := by
    simp [List.sorted_cons]
    decide
  rw [recoverQueue, hmap]
  exact List.mergeSort_eq_self hsorted

/-- Claim C4, counterexample: with a segment open but the alive flag false
(the shutdown rotation), `trigger_upload` does not create a new segment
file - `_file` stays `None` and no file named by the new timestamp appears
in the pending directory - refuting the unconditional claim. -/
theorem rotate_after_shutdown_no_create_cex :
    (triggerUpload "hdr" "t9" true (handleShutdown sampleOpenState)).file = none ∧
    lookupDisk (triggerUpload "hdr" "t9" true (handleShutdown sampleOpenState)).pendingDisk
      (segName "t9") = none := by decide

/-- Claim C4 (amended: restricted to calls made while the alive flag is
true, since the shutdown rotation opens no new file; the creation of the
new file succeeding is the `ioOk = true` case, its failure being the
`IOError` of claim C7): a rotation with a segment open closes it, pushes
its stored filename onto the queue tail, assigns the new timestamp-named
segment name, sets the upload event, and when the open succeeds the new
segment is open with the sensor header as its sole line. -/
theorem rotate_spec (header now : String) (ioOk : Bool) (s : SensorState) (fn : String)
    (halive : s.alive = true) (hfile : s.file = some fn) :
    (triggerUpload header now ioOk s).queue = s.queue ++ [s.filename] ∧
    (triggerUpload header now ioOk s).filename = segName now ∧
    (triggerUpload header now ioOk s).eventSet = true ∧
    (ioOk = true →
      (triggerUpload header now ioOk s).file = some (segName now) ∧
      lookupDisk (triggerUpload header now ioOk s).pendingDisk (segName now) = some [header] ∧
      (triggerUpload header now ioOk s).openHandles = s.openHandles.erase fn ++ [segName now]) := by
  cases ioOk with
  | false => simp [triggerUpload, hfile, halive]
  | true =>
    refine ⟨?_, ?_, ?_, fun _ => ⟨?_, ?_, ?_⟩⟩ <;>
      simp [triggerUpload, hfile, halive, writeToFile, appendDisk, createDisk, lookupDisk,
        List.find?]

/-- Concrete instance of the rotation theorem on a state with one open
segment. -/
theorem rotate_spec_witness :
    (triggerUpload "hdr" "t9" true sampleOpenState).queue =
      sampleOpenState.queue ++ [sampleOpenState.filename] ∧
    (triggerUpload "hdr" "t9" true sampleOpenState).filename = segName "t9" ∧
    (triggerUpload "hdr" "t9" true sampleOpenState).eventSet = true ∧
    (true = true →
      (triggerUpload "hdr" "t9" true sampleOpenState).file = some (segName "t9") ∧
      lookupDisk (triggerUpload "hdr" "t9" true sampleOpenState).pendingDisk (segName "t9") =
        some ["hdr"] ∧
      (triggerUpload "hdr" "t9" true sampleOpenState).openHandles =
        sampleOpenState.openHandles.erase "pending/a.csv" ++ [segName "t9"]) :=
  rotate_spec "hdr" "t9" true sampleOpenState "pending/a.csv" (by decide) (by decide)

/-- Claim C5: in every reachable state of the writer, at most one segment
file handle is open. -/
theorem at_most_one_open_segment (s : SensorState) (h : Reachable s) :
    s.openHandles.length ≤ 1 := by
  obtain ⟨i1, i2⟩ := reachable_handleInv s h
  rcases hf : s.file with _ | fn
  · rw [i2 hf]
    simp
  · rw [(i1 fn hf).1]
    simp

/-- Concrete instance of the handle bound after the constructor rotation. -/
theorem at_most_one_open_segment_witness :
    (triggerUpload "hdr" "t1" true initState).openHandles.length ≤ 1 :=
  at_most_one_open_segment (triggerUpload "hdr" "t1" true initState)
    (Reachable.step Reachable.init (Step.rotate "hdr" "t1" true initState))

/-- Claim C6: during a drain round a segment is archived (and popped) only
when its upload returned exactly HTTP 200; the archived segments form a
prefix of the queue, and every segment still queued keeps its content in
the pending location. -/
theorem pending_to_archived_only_on_200 (hash name : String) (f : String → UploadResult) :
    ∀ (q : List String) (d : Disk) (u : List String), q.Nodup →
      ∃ a,
        (uploadDataGo mkRequest hash name f q d u).uploadedDir = u ++ a ∧
        q = a ++ (uploadDataGo mkRequest hash name f q d u).queue ∧
        (∀ fn ∈ a, f fn = .status 200) ∧
        ∀ fn ∈ (uploadDataGo mkRequest hash name f q d u).queue,
          lookupDisk (uploadDataGo mkRequest hash name f q d u).pendingDisk fn =
            lookupDisk d fn := by
  intro q
  induction q with
  | nil =>
    intro d u _
    exact ⟨[], by simp [uploadDataGo], by simp [uploadDataGo], by simp, by simp [uploadDataGo]⟩
  | cons fn rest ih =>
    intro d u hnd
    rw [List.nodup_cons] at hnd
    cases hd : lookupDisk d fn with
    | none =>
      exact ⟨[], by simp [uploadDataGo, hd], by simp [uploadDataGo, hd], by simp,
        by simp [uploadDataGo, hd]⟩
    | some lines =>
      cases hf : f fn with
      | transportError =>
        exact ⟨[], by simp [uploadDataGo, hd, hf], by simp [uploadDataGo, hd, hf], by simp,
          by simp [uploadDataGo, hd, hf]⟩
      | status c =>
        by_cases hc : c = 200
        · subst hc
          obtain ⟨a, ha1, ha2, ha3, ha4⟩ := ih (removeDisk d fn) (u ++ [fn]) hnd.2
          refine ⟨fn :: a, ?_, ?_, ?_, ?_⟩
          · simp only [uploadDataGo, hd, hf, reduceIte]
            rw [ha1]
            simp
          · simp only [uploadDataGo, hd, hf, reduceIte]
            rw [List.cons_append]
            exact congrArg _ ha2
          · intro g hg
            rcases List.mem_cons.mp hg with hg | hg
            · rw [hg, hf]
            · exact ha3 g hg
          · intro g hg
            simp only [uploadDataGo, hd, hf, reduceIte] at hg ⊢
            have hgrest : g ∈ rest := by
              rw [ha2]
              exact List.mem_append_right a hg
            have hne : g ≠ fn := fun hgf => hnd.1 (hgf ▸ hgrest)
            rw [ha4 g hg]
            exact lookupDisk_removeDisk_ne fn g hne d
        · exact ⟨[], by simp [uploadDataGo, hd, hf, hc], by simp [uploadDataGo, hd, hf, hc],
            by simp, by simp [uploadDataGo, hd, hf, hc]⟩

/-- Concrete instance of the archive-only-on-200 theorem: head succeeds,
second segment fails with 503. -/
theorem pending_to_archived_only_on_200_witness :
    ∃ a,
      (uploadDataGo mkRequest "h" "n" (fun fn => if fn = "pending/a.csv" then .status 200 else .status 503)
          ["pending/a.csv", "pending/b.csv"]
          [("pending/a.csv", ["l1"]), ("pending/b.csv", ["l2"])] []).uploadedDir = [] ++ a ∧
      ["pending/a.csv", "pending/b.csv"] =
        a ++ (uploadDataGo mkRequest "h" "n" (fun fn => if fn = "pending/a.csv" then .status 200 else .status 503)
          ["pending/a.csv", "pending/b.csv"]
          [("pending/a.csv", ["l1"]), ("pending/b.csv", ["l2"])] []).queue ∧
      (∀ fn ∈ a, (fun fn => if fn = "pending/a.csv" then UploadResult.status 200 else .status 503) fn = .status 200) ∧
      ∀ fn ∈ (uploadDataGo mkRequest "h" "n" (fun fn => if fn = "pending/a.csv" then .status 200 else .status 503)
          ["pending/a.csv", "pending/b.csv"]
          [("pending/a.csv", ["l1"]), ("pending/b.csv", ["l2"])] []).queue,
        lookupDisk (uploadDataGo mkRequest "h" "n" (fun fn => if fn = "pending/a.csv" then .status 200 else .status 503)
          ["pending/a.csv", "pending/b.csv"]
          [("pending/a.csv", ["l1"]), ("pending/b.csv", ["l2"])] []).pendingDisk fn =
          lookupDisk [("pending/a.csv", ["l1"]), ("pending/b.csv", ["l2"])] fn :=
  pending_to_archived_only_on_200 "h" "n" _ ["pending/a.csv", "pending/b.csv"]
    [("pending/a.csv", ["l1"]), ("pending/b.csv", ["l2"])] [] (by decide)

/-- Claim C7: a failed creation of the new segment file during rotation is
non-fatal, leaves the writer with no open segment and the pending
directory unchanged, and while no segment is open `write_to_file` is a
no-op. -/
theorem storage_fault_nonfatal (header now data : String) (s : SensorState) :
    (triggerUpload header now false s).file = none ∧
    (triggerUpload header now false s).pendingDisk = s.pendingDisk ∧
    (s.file = none → writeToFile s data = s) := by
  refine ⟨?_, ?_, fun h => ?_⟩
  · cases hf : s.file <;> cases ha : s.alive <;> simp [triggerUpload, hf, ha]
  · cases hf : s.file <;> cases ha : s.alive <;> simp [triggerUpload, hf, ha]
  · simp [writeToFile, h]

/-- Concrete instance of the storage-fault theorem on the initial state. -/
theorem storage_fault_nonfatal_witness :
    (triggerUpload "hdr" "t1" false initState).file = none ∧
    (triggerUpload "hdr" "t1" false initState).pendingDisk = initState.pendingDisk ∧
    writeToFile initState "r1" = initState := by
  have h := storage_fault_nonfatal "hdr" "t1" "r1" initState
  exact ⟨h.1, h.2.1, h.2.2 rfl⟩

/-- Claim C8, counterexample: in the usual shutdown scenario (a segment
open in `main`, the uploader blocked in `wait`), two `trigger_upload`
calls and two `_upload_data` calls occur after the alive flag turns false,
not exactly one of each. -/
theorem shutdown_counts_cex :
    (postShutdownActions true true).count SensorAction.rotate = 2 ∧
    (postShutdownActions true true).count SensorAction.drain = 2 := by decide

/-- Claim C8 (amended): after a shutdown request the uploader thread
performs exactly one final rotate and one final drain attempt after its
loop exits; in addition `main` rotates once more when a segment is open
and the woken uploader loop completes one more drain, so up to two rotates
and two drain attempts occur in total. -/
theorem shutdown_final_flush (fileOpen wasWaiting : Bool) :
    uploaderFinalActions.count SensorAction.rotate = 1 ∧
    uploaderFinalActions.count SensorAction.drain = 1 ∧
    (postShutdownActions fileOpen wasWaiting).count SensorAction.rotate =
      (if fileOpen then 2 else 1) ∧
    (postShutdownActions fileOpen wasWaiting).count SensorAction.drain =
      (if wasWaiting then 2 else 1) := by
  cases fileOpen <;> cases wasWaiting <;> decide

/-- Claim C9, counterexample: a drain round of the `Sensor` variant in
`sensor.py` issues its request without the 10-second timeout. -/
theorem sensorpy_drain_no_timeout_cex :
    (uploadDataGo mkRequestSensorPy "h" "n" (fun _ => .status 200)
        ["pending/a.csv"] [("pending/a.csv", ["l1"])] []).requests.all
      (fun r => r.timeout == some 10) = false := by decide

/-- Claim C9 (amended: the fixed 10-second timeout holds for
`BicycleSensor._upload_data`, while the `sensor.py` variant sets no
timeout): a drain round issues at most one request per queued segment, and
every request carries the fixed URL, the device hash, the sensor name, the
record lines of a queued segment, and the 10-second timeout. -/
theorem single_request_per_segment (hash name : String) (f : String → UploadResult) :
    ∀ (q : List String) (d : Disk) (u : List String), q.Nodup →
      (uploadDataGo mkRequest hash name f q d u).requests.length ≤ q.length ∧
      ∀ r ∈ (uploadDataGo mkRequest hash name f q d u).requests,
        r.url = uploadURL ∧ r.hash = hash ∧ r.sensor = name ∧ r.timeout = some 10 ∧
        ∃ fn ∈ q, lookupDisk d fn = some r.csvData := by
  intro q
  induction q with
  | nil => intro d u _; simp [uploadDataGo]
  | cons fn rest ih =>
    intro d u hnd
    rw [List.nodup_cons] at hnd
    cases hd : lookupDisk d fn with
    | none => simp [uploadDataGo, hd]
    | some lines =>
      cases hf : f fn with
      | transportError =>
        refine ⟨by simp [uploadDataGo, hd, hf], ?_⟩
        intro r hr
        simp [uploadDataGo, hd, hf] at hr
        subst hr
        exact ⟨rfl, rfl, rfl, rfl, fn, by simp, by simp [hd, mkRequest]⟩
      | status c =>
        by_cases hc : c = 200
        · subst hc
          have ihr := ih (removeDisk d fn) (u ++ [fn]) hnd.2
          refine ⟨?_, ?_⟩
          · simp only [uploadDataGo, hd, hf]
            simpa using Nat.succ_le_succ ihr.1
          · intro r hr
            simp only [uploadDataGo, hd, hf] at hr
            simp only [reduceIte, List.mem_cons] at hr
            rcases hr with hr | hr
            · subst hr
              exact ⟨rfl, rfl, rfl, rfl, fn, by simp, by simp [hd, mkRequest]⟩
            · obtain ⟨h1, h2, h3, h4, g, hg, hgd⟩ := ihr.2 r hr
              refine ⟨h1, h2, h3, h4, g, by simp [hg], ?_⟩
              rw [← hgd]
              have hne : g ≠ fn := fun hgf => hnd.1 (hgf ▸ hg)
              exact (lookupDisk_removeDisk_ne fn g hne d).symm
        · refine ⟨by simp [uploadDataGo, hd, hf, hc], ?_⟩
          intro r hr
          simp [uploadDataGo, hd, hf, hc] at hr
          subst hr
          exact ⟨rfl, rfl, rfl, rfl, fn, by simp, by simp [hd, mkRequest]⟩

/-- Concrete instance of the request-shape theorem on a one-segment
queue. -/
theorem single_request_per_segment_witness :
    (uploadDataGo mkRequest "h" "n" (fun _ => .status 200)
        ["pending/a.csv"] [("pending/a.csv", ["l1"])] []).requests.length ≤
      (["pending/a.csv"] : List String).length ∧
    ∀ r ∈ (uploadDataGo mkRequest "h" "n" (fun _ => .status 200)
        ["pending/a.csv"] [("pending/a.csv", ["l1"])] []).requests,
      r.url = uploadURL ∧ r.hash = "h" ∧ r.sensor = "n" ∧ r.timeout = some 10 ∧
      ∃ fn ∈ (["pending/a.csv"] : List String),
        lookupDisk [("pending/a.csv", ["l1"])] fn = some r.csvData :=
  single_request_per_segment "h" "n" (fun _ => .status 200)
    ["pending/a.csv"] [("pending/a.csv", ["l1"])] [] (by decide)

/-- Claim C10: a rotation performed while the alive flag is false closes
and enqueues the open segment but opens no new one: afterwards no segment
is open, the pending directory is unchanged (so no empty trailing segment
file is created), and the upload event is set. -/
theorem final_rotate_no_new_segment (header now : String) (ioOk : Bool) (s : SensorState)
    (fn : String) (hdead : s.alive = false) (hfile : s.file = some fn) :
    (triggerUpload header now ioOk s).file = none ∧
    (triggerUpload header now ioOk s).queue = s.queue ++ [s.filename] ∧
    (triggerUpload header now ioOk s).pendingDisk = s.pendingDisk ∧
    (triggerUpload header now ioOk s).openHandles = s.openHandles.erase fn ∧
    (triggerUpload header now ioOk s).eventSet = true := by
  simp [triggerUpload, hfile, hdead]

/-- Concrete instance of the shutdown-rotation theorem on a state with one
open segment and the alive flag lowered. -/
theorem final_rotate_no_new_segment_witness :
    (triggerUpload "hdr" "t9" true (handleShutdown sampleOpenState)).file = none ∧
    (triggerUpload "hdr" "t9" true (handleShutdown sampleOpenState)).queue =
      (handleShutdown sampleOpenState).queue ++ [(handleShutdown sampleOpenState).filename] ∧
    (triggerUpload "hdr" "t9" true (handleShutdown sampleOpenState)).pendingDisk =
      (handleShutdown sampleOpenState).pendingDisk ∧
    (triggerUpload "hdr" "t9" true (handleShutdown sampleOpenState)).openHandles =
      (handleShutdown sampleOpenState).openHandles.erase "pending/a.csv" ∧
    (triggerUpload "hdr" "t9" true (handleShutdown sampleOpenState)).eventSet = true :=
  final_rotate_no_new_segment "hdr" "t9" true (handleShutdown sampleOpenState)
    "pending/a.csv" (by decide) (by decide)

end Sensors
